import Mathlib

/-!
Shallow embedding of the analytic core of `tour-insights-dashboard.py`.

The script loads monthly CSV tables (bookings, tours, guides, availability,
skills), joins them with `pandas.merge`, and computes grouped/sorted
aggregates.  Tables are embedded as Lean lists of records, `pd.merge` as an
explicit left-outer-join combinator, `value_counts`/`groupby` as tallies over
key lists (pandas hash tables enumerate keys in first-appearance order and
`value_counts` sorts with a stable descending sort), and `sort_values` as an
insertion sort, descending by the sort key.  Float columns that can hold
NaN/inf (the occupancy percentage) are embedded as an explicit `PFloat` type
over ℚ with IEEE-style special values, mirroring numpy's division semantics.
-/

namespace TourInsights

/-! ### Generic list machinery (embedding of pandas primitives) -/

/-- Keys of a pandas hash table in first-appearance order: the distinct
elements of `l`, each listed at the position of its first occurrence. -/
def firstOccs {κ : Type} [DecidableEq κ] : List κ → List κ
  | [] => []
  | k :: ks => k :: (firstOccs ks).filter (fun x => x ≠ k)

/-- Number of occurrences of a key in a key list. -/
def countKey {κ : Type} [DecidableEq κ] (l : List κ) (k : κ) : Nat :=
  l.count k

/-- Embedding of the un-sorted result of `Series.value_counts` /
`groupby(...).size()`: each distinct key with its number of occurrences,
keys in first-appearance order. -/
def tally {κ : Type} [DecidableEq κ] (keys : List κ) : List (κ × Nat) :=
  (firstOccs keys).map (fun k => (k, countKey keys k))

/-- Insertion step of the descending stable sort: `x` passes over strictly
larger keys and lands before the first element whose key is not larger,
so earlier input elements precede later ones on ties. -/
def insertDescBy {α β : Type} (f : α → β) [LinearOrder β] (x : α) :
    List α → List α
  | [] => [x]
  | y :: ys => if f x < f y then y :: insertDescBy f x ys else x :: y :: ys

/-- Stable sort, descending by the key `f` (embeds `sort_values(ascending=False)`
and the stable descending sort inside `value_counts`). -/
def sortDescBy {α β : Type} (f : α → β) [LinearOrder β] : List α → List α
  | [] => []
  | x :: xs => insertDescBy f x (sortDescBy f xs)

/-- Embedding of `DataFrame.drop_duplicates(subset=[key], keep="first")`:
keep the first row for each key value. -/
def dropDupByGo {α κ : Type} [DecidableEq κ] (key : α → κ) (seen : List κ) :
    List α → List α
  | [] => []
  | x :: xs =>
    if key x ∈ seen then dropDupByGo key seen xs
    else x :: dropDupByGo key (key x :: seen) xs

/-- Top-level entry of `drop_duplicates(subset=[key], keep="first")`. -/
def drop_duplicatesBy {α κ : Type} [DecidableEq κ] (key : α → κ)
    (l : List α) : List α :=
  dropDupByGo key [] l

/-- Key universe of an outer merge: left keys in order, then the right keys
not already present, in order (pandas `merge(how="outer")` key order for
ordered inputs). -/
def mergeKeys {κ : Type} [DecidableEq κ] (l r : List κ) : List κ :=
  l ++ r.filter (fun k => k ∉ l)

/-- Value lookup in a keyed table (first matching row, as `pandas` alignment
does for unique keys). -/
def lookupVal {κ β : Type} [DecidableEq κ] (t : List (κ × β)) (k : κ) :
    Option β :=
  (t.find? (fun p => p.1 = k)).map (fun p => p.2)

/-- One row of a pandas left outer join: every left row is emitted once per
matching right row, or once with a missing right side when nothing matches. -/
def left_join {α ρ γ : Type} (L : List α) (R : List ρ) (key : α → ρ → Bool)
    (mk : α → Option ρ → γ) : List γ :=
  L.flatMap (fun a =>
    match R.filter (key a) with
    | [] => [mk a none]
    | m :: ms => (m :: ms).map (fun r => mk a (some r)))

/-! ### Data model (§3 of the source: CSV schemas after loading) -/

/-- A row of `bookings_MM-2025.csv`. -/
structure Booking where
  BookingID : Nat
  TourID : Nat
  GuideID : Nat
  BookingDate : String
deriving DecidableEq, Repr

/-- A row of `tours_MM-2025.csv`; the seven `Op_*` flags are integer columns
(boolean-like 0/1 in well-formed data, but the CSV type is int). -/
structure Tour where
  id : Nat
  TourName : String
  TourLocation : String
  TimeStart : String
  TimeEnd : String
  Op_Monday : Int
  Op_Tuesday : Int
  Op_Wednesday : Int
  Op_Thursday : Int
  Op_Friday : Int
  Op_Saturday : Int
  Op_Sunday : Int
deriving DecidableEq, Repr

/-- A row of `guides_MM-2025.csv`. -/
structure Guide where
  id : Nat
  GuideName : String
  GuideLocation : String
deriving DecidableEq, Repr

/-- A row of `guide_avail_MM-2025.csv`; `GuideAvailability` may be missing
(NaN in the loaded frame), hence `Option`. -/
structure AvailRecord where
  GuideID : Nat
  AvailabilityDate : String
  GuideAvailability : Option String
deriving DecidableEq, Repr

/-! ### Joiner (source lines 99-134 and 593-598) -/

/-- A row of `bookings_tours[m] = bookings[m].merge(tours[m], left_on="TourID",
right_on="id", how="left")`.  The tour-side columns are `Option`: `none` is
the NaN a left join produces for an unmatched `TourID`.  (Plot-only tour
columns are omitted; `tour_id` is the tours-side `id` column.) -/
structure BookingTourRow where
  booking : Booking
  tour_id : Option Nat
  TourName : Option String
deriving DecidableEq, Repr

/-- A row of `bookings_merged[m]` after the second merge and the
`id_x → TourID_Source`, `id_y → GuideID_Source` rename (source lines 109-125). -/
structure BookingsMergedRow where
  booking : Booking
  TourID_Source : Option Nat
  TourName : Option String
  GuideID_Source : Option Nat
  GuideName : Option String
deriving DecidableEq, Repr

/-- `bookings[m].merge(tours[m], left_on="TourID", right_on="id", how="left")`. -/
def bookings_tours (bs : List Booking) (ts : List Tour) : List BookingTourRow :=
  left_join bs ts (fun b t => t.id == b.TourID)
    (fun b t? => ⟨b, t?.map (fun t => t.id), t?.map (fun t => t.TourName)⟩)

/-- `bookings_tours[m].merge(guides[m], left_on="GuideID", right_on="id",
how="left")` followed by the `id_x`/`id_y` rename. -/
def bookings_merged (bs : List Booking) (ts : List Tour) (gs : List Guide) :
    List BookingsMergedRow :=
  left_join (bookings_tours bs ts) gs (fun r g => g.id == r.booking.GuideID)
    (fun r g? => ⟨r.booking, r.tour_id, r.TourName,
      g?.map (fun g => g.id), g?.map (fun g => g.GuideName)⟩)

/-- A row of `availability_days_guides[m] = guides[m].merge(availability[m],
left_on="id", right_on="GuideID", how="left")`: the GUIDES table is the left
side, so guide rows are always kept and the availability-side columns
(`GuideID`, `AvailabilityDate`, `GuideAvailability`) are `none` when a guide
has no availability record. -/
structure AvailJoinRow where
  id : Nat
  GuideName : String
  GuideID : Option Nat
  AvailabilityDate : Option String
  GuideAvailability : Option String
deriving DecidableEq, Repr

/-- `guides[m].merge(availability[m], left_on="id", right_on="GuideID",
how="left")` (source lines 593-598). -/
def availability_days_guides (gs : List Guide) (av : List AvailRecord) :
    List AvailJoinRow :=
  left_join gs av (fun g a => a.GuideID == g.id)
    (fun g a? => ⟨g.id, g.GuideName, a?.map (fun a => a.GuideID),
      a?.map (fun a => a.AvailabilityDate), a?.bind (fun a => a.GuideAvailability)⟩)

/-! ### Column-name bookkeeping of the bookings join (source lines 99-125).
pandas suffixes colliding column names with `_x`/`_y`; the script then renames
`id_x → TourID_Source` and `id_y → GuideID_Source`. -/

/-- Column list of the loaded bookings frame. -/
def bookings_cols : List String := ["BookingID", "TourID", "GuideID", "BookingDate"]

/-- Column list of the loaded tours frame. -/
def tours_cols : List String :=
  ["id", "TourName", "TourLocation", "TimeStart", "TimeEnd", "Op_Monday",
   "Op_Tuesday", "Op_Wednesday", "Op_Thursday", "Op_Friday", "Op_Saturday",
   "Op_Sunday"]

/-- Column list of the loaded guides frame. -/
def guides_cols : List String := ["id", "GuideName", "GuideLocation"]

/-- Column names produced by `pd.merge(left, right)`: a column present on both
sides is kept on both, suffixed `_x` (left) and `_y` (right). -/
def merge_columns (l r : List String) : List String :=
  l.map (fun c => if c ∈ r then c ++ "_x" else c) ++
    r.map (fun c => if c ∈ l then c ++ "_y" else c)

/-- The script's rename of the ambiguous merged id columns (lines 117-125). -/
def rename_id_cols (cols : List String) : List String :=
  cols.map (fun c =>
    if c = "id_x" then "TourID_Source"
    else if c = "id_y" then "GuideID_Source" else c)

/-- Column names of `bookings_merged[m]` after both merges and the rename. -/
def bookings_merged_cols : List String :=
  rename_id_cols (merge_columns (merge_columns bookings_cols tours_cols) guides_cols)

/-! ### Aggregator -/

/-- `value_counts`: distinct keys with occurrence counts, stable-sorted
descending by count. -/
def value_counts {κ : Type} [DecidableEq κ] [LinearOrder κ]
    (keys : List κ) : List (κ × Nat) :=
  sortDescBy (fun p => p.2) (tally keys)

/-- `top_tours = bookings_tours[m]["TourName"].value_counts().head(n)`
(source lines 139-141 with `n = 10`): `value_counts` drops NaN keys, so only
the `some` names are counted. -/
def top_tours (bs : List Booking) (ts : List Tour) (n : Nat) :
    List (String × Nat) :=
  (value_counts (((bookings_tours bs ts).map (fun r => r.TourName)).filterMap id)).take n

/-- `top_guides_MM_2025 = bookings_merged[m]["GuideName"].value_counts().head(n)`
(source lines 476-479 with `n = 10`). -/
def top_guides (bs : List Booking) (ts : List Tour) (gs : List Guide) (n : Nat) :
    List (String × Nat) :=
  (value_counts (((bookings_merged bs ts gs).map (fun r => r.GuideName)).filterMap id)).take n

/-- The filter on availability rows (source lines 608-611): keep rows whose
`GuideAvailability` is present (`notna`) and non-empty. -/
def valid_avail (rows : List AvailJoinRow) : List AvailJoinRow :=
  rows.filter (fun r =>
    match r.GuideAvailability with
    | some s => s ≠ ""
    | none => false)

/-- `Series.nunique` over a possibly-NaN column: the number of distinct
non-null values. -/
def nunique (dates : List (Option String)) : Nat :=
  (dates.filterMap id).dedup.length

/-- `valid_avail.groupby("GuideName")["AvailabilityDate"].nunique()
.sort_values(ascending=False)` (source lines 773-781; the `.head(10)` variant
at 604-619 is `(available_days_per_guide rows).take 10`).  Group keys are
enumerated in first-appearance order; no stated claim depends on the relative
order of equal counts. -/
def available_days_per_guide (rows : List AvailJoinRow) : List (String × Nat) :=
  sortDescBy (fun p => p.2)
    ((firstOccs ((valid_avail rows).map (fun r => r.GuideName))).map
      (fun g => (g, nunique (((valid_avail rows).filter
        (fun r => r.GuideName == g)).map (fun r => r.AvailabilityDate)))))

/-- `calendar.monthrange(year, month)[1]` (source lines 29-31). -/
def get_days_in_month (month : Nat) (year : Nat) : Nat :=
  if month = 2 then
    (if year % 4 = 0 ∧ (year % 100 ≠ 0 ∨ year % 400 = 0) then 29 else 28)
  else if month = 4 ∨ month = 6 ∨ month = 9 ∨ month = 11 then 30
  else 31

/-- `not_available_MM_2025 = days_in_month - available_days_per_guide_MM`
then `.sort_values(ascending=False)` (source lines 1011-1020): a plain
integer subtraction broadcast over the series — negative results are neither
clamped nor flagged. -/
def not_available_days (daysInMonth : Nat) (avail : List (String × Nat)) :
    List (String × Int) :=
  sortDescBy (fun p => p.2)
    (avail.map (fun p => (p.1, (daysInMonth : Int) - (p.2 : Int))))

/-! ### Pandas float semantics for the occupancy percentage -/

/-- Value of a float64 column cell: a finite value (modelled exactly, as ℚ),
a signed infinity, or NaN.  `num`, `inf`, `ninf`, `nan` mirror numpy. -/
inductive PFloat where
  | num : ℚ → PFloat
  | inf : PFloat
  | ninf : PFloat
  | nan : PFloat
deriving DecidableEq, Repr

/-- numpy division: NaN propagates; a nonzero finite value divided by zero
gives a signed infinity, `0/0` gives NaN. -/
def pdiv : PFloat → PFloat → PFloat
  | PFloat.nan, _ => PFloat.nan
  | _, PFloat.nan => PFloat.nan
  | PFloat.num a, PFloat.num b =>
    if b = 0 then
      (if 0 < a then PFloat.inf else if a < 0 then PFloat.ninf else PFloat.nan)
    else PFloat.num (a / b)
  | PFloat.num _, PFloat.inf => PFloat.num 0
  | PFloat.num _, PFloat.ninf => PFloat.num 0
  | PFloat.inf, PFloat.num b => if 0 ≤ b then PFloat.inf else PFloat.ninf
  | PFloat.ninf, PFloat.num b => if 0 ≤ b then PFloat.ninf else PFloat.inf
  | PFloat.inf, PFloat.inf => PFloat.nan
  | PFloat.inf, PFloat.ninf => PFloat.nan
  | PFloat.ninf, PFloat.inf => PFloat.nan
  | PFloat.ninf, PFloat.ninf => PFloat.nan

/-- numpy multiplication on the same value domain. -/
def pmul : PFloat → PFloat → PFloat
  | PFloat.nan, _ => PFloat.nan
  | _, PFloat.nan => PFloat.nan
  | PFloat.num a, PFloat.num b => PFloat.num (a * b)
  | PFloat.num a, PFloat.inf =>
    if 0 < a then PFloat.inf else if a < 0 then PFloat.ninf else PFloat.nan
  | PFloat.inf, PFloat.num b =>
    if 0 < b then PFloat.inf else if b < 0 then PFloat.ninf else PFloat.nan
  | PFloat.num a, PFloat.ninf =>
    if 0 < a then PFloat.ninf else if a < 0 then PFloat.inf else PFloat.nan
  | PFloat.ninf, PFloat.num b =>
    if 0 < b then PFloat.ninf else if b < 0 then PFloat.inf else PFloat.nan
  | PFloat.inf, PFloat.inf => PFloat.inf
  | PFloat.inf, PFloat.ninf => PFloat.ninf
  | PFloat.ninf, PFloat.inf => PFloat.ninf
  | PFloat.ninf, PFloat.ninf => PFloat.inf

/-- Round a rational to the nearest integer, ties to even (IEEE/numpy
rounding used by `Series.round`). -/
def roundHalfEven (q : ℚ) : ℤ :=
  let f : ℤ := Int.fdiv q.num (q.den : ℤ)
  let r : ℚ := q - (f : ℚ)
  if r < 1 / 2 then f
  else if 1 / 2 < r then f + 1
  else if f % 2 = 0 then f else f + 1

/-- `Series.round(2)` on the float domain: finite values round to two
decimals, the special values pass through. -/
def pround2 : PFloat → PFloat
  | PFloat.num q => PFloat.num ((roundHalfEven (q * 100) : ℚ) / 100)
  | PFloat.inf => PFloat.inf
  | PFloat.ninf => PFloat.ninf
  | PFloat.nan => PFloat.nan

/-- Cell of a float column built from an aligned integer series: a present
count becomes a finite float, a missing entry becomes NaN. -/
def toPFloat : Option Nat → PFloat
  | some v => PFloat.num (v : ℚ)
  | none => PFloat.nan

/-- `stats["OccupancyPct"] = (stats["DaysOccupied"] / stats["AvailableDays"]
* 100).round(2)` (source line 1358), as a function of the two cells. -/
def occupancyPct (occ avail : PFloat) : PFloat :=
  pround2 (pmul (pdiv occ avail) (PFloat.num 100))

/-- A row of the occupancy table `stats` (source lines 1351-1358). -/
structure OccRow where
  GuideName : String
  DaysOccupied : PFloat
  AvailableDays : PFloat
  OccupancyPct : PFloat
deriving DecidableEq, Repr

/-- `stats = pd.DataFrame({"DaysOccupied": occupied, "AvailableDays": avail})`
with the `OccupancyPct` column added: the row index is the union of the two
series' guide names (alignment; a guide missing from one series gets NaN
there), and each percentage cell applies `occupancyPct` to the row.  (pandas
sorts the union index; no stated claim depends on row order, so the union is
taken in first-appearance order here.) -/
def occupancy_stats (occ avail : List (String × Nat)) : List OccRow :=
  (mergeKeys (occ.map (fun p => p.1)) (avail.map (fun p => p.1))).map
    (fun k =>
      let d := toPFloat (lookupVal occ k)
      let a := toPFloat (lookupVal avail k)
      ⟨k, d, a, occupancyPct d a⟩)

/-- Sort key for `sort_values(["OccupancyPct"], ascending=False)`: finite
values between the infinities; NaN rows are split off before sorting. -/
def pfKey : PFloat → WithBot (WithTop ℚ)
  | PFloat.num q => ((q : WithTop ℚ) : WithBot (WithTop ℚ))
  | PFloat.inf => ((⊤ : WithTop ℚ) : WithBot (WithTop ℚ))
  | PFloat.ninf => ⊥
  | PFloat.nan => ⊥

/-- `stats.sort_values(["OccupancyPct"], ascending=False)` (source line 1361):
non-NaN rows sorted descending, NaN rows last (`na_position` default). -/
def stats_sorted (occ avail : List (String × Nat)) : List OccRow :=
  sortDescBy (fun r => pfKey r.OccupancyPct)
    ((occupancy_stats occ avail).filter (fun r => r.OccupancyPct ≠ PFloat.nan)) ++
    (occupancy_stats occ avail).filter (fun r => r.OccupancyPct = PFloat.nan)

/-! ### Cross-period combiner (source lines 935-958 and 1922-1957) -/

/-- A row of the combined wide table: one value column per month plus the
`Total` column. -/
structure CombinedRow where
  name : String
  march : Nat
  april : Nat
  may : Nat
  june : Nat
  Total : Nat
deriving DecidableEq, Repr

/-- The three nested `pd.merge(..., how="outer")` over the entity-name key,
followed by `.fillna(0)`, `.astype(int)` and the `Total` sum column.  Inputs
are `groupby` outputs, whose keys are distinct. -/
def merged (t03 t04 t05 t06 : List (String × Nat)) : List CombinedRow :=
  (mergeKeys (mergeKeys (mergeKeys (t03.map (fun p => p.1))
      (t04.map (fun p => p.1))) (t05.map (fun p => p.1)))
      (t06.map (fun p => p.1))).map
    (fun k =>
      let a := (lookupVal t03 k).getD 0
      let b := (lookupVal t04 k).getD 0
      let c := (lookupVal t05 k).getD 0
      let d := (lookupVal t06 k).getD 0
      ⟨k, a, b, c, d, a + b + c + d⟩)

/-! ### Operating days and dominant time slots (source lines 1702-1726, 2048-2084) -/

/-- The seven weekday flag columns of a tour, in `week_cols` order. -/
def week_flags (t : Tour) : List Int :=
  [t.Op_Monday, t.Op_Tuesday, t.Op_Wednesday, t.Op_Thursday, t.Op_Friday,
   t.Op_Saturday, t.Op_Sunday]

/-- `tours["Tours_Operating_Days"] = tours[week_cols].sum(axis=1)`
(source line 1719), for one tour row. -/
def Tours_Operating_Days (t : Tour) : Int :=
  (week_flags t).sum

/-- `tours["TimeSlot"] = tours["TimeStart"].astype(str) + " - " +
tours["TimeEnd"].astype(str)` (source lines 2051-2055). -/
def TimeSlot (t : Tour) : String :=
  t.TimeStart ++ " - " ++ t.TimeEnd

/-- `active_tours = tours[tours["Tours_Operating_Days"] > 0]` (line 2072). -/
def active_tours (ts : List Tour) : List Tour :=
  ts.filter (fun t => 0 < Tours_Operating_Days t)

/-- `slot_counts = active_tours.groupby(["TourLocation", "TimeSlot"]).size()`
(source lines 2075-2079), keyed by the (location, slot) pair. -/
def slot_counts (ts : List Tour) : List ((String × String) × Nat) :=
  tally ((active_tours ts).map (fun t => (t.TourLocation, TimeSlot t)))

/-- `top_slot = slot_counts.sort_values("Count", ascending=False)
.drop_duplicates(subset=["TourLocation"], keep="first")` (lines 2082-2084). -/
def top_slot (ts : List Tour) : List ((String × String) × Nat) :=
  drop_duplicatesBy (fun p => p.1.1) (sortDescBy (fun p => p.2) (slot_counts ts))

/-! ### Concrete datasets used to instantiate the theorems -/

/-- A one-guide roster. -/
def exGuides : List Guide := [⟨1, "G1", "Rome"⟩]

/-- The availability table of the spec's §8 example: two non-empty slots on
the same date plus an empty slot on another date. -/
def exAvail : List AvailRecord :=
  [⟨1, "2025-03-01", some "9-12"⟩, ⟨1, "2025-03-01", some "13-15"⟩,
   ⟨1, "2025-03-02", some ""⟩]

/-- An availability table with 32 distinct dates for guide 1 — more dates
than any month has days, as happens when availability rows carry dates
outside the period's month. -/
def overfullAvail : List AvailRecord :=
  (List.range 32).map (fun i => ⟨1, toString i, some "9-12"⟩)

/-- An availability record whose `GuideID` (2) matches no guide in
`exGuides` — a join orphan on the availability side. -/
def orphanAvail : List AvailRecord := [⟨2, "2025-03-01", some "9-12"⟩]

/-- A two-tour catalogue used for the booking-side witnesses. -/
def exTours : List Tour :=
  [⟨10, "T1", "Rome", "09:00", "12:00", 1, 0, 1, 0, 1, 0, 1⟩,
   ⟨11, "T2", "Milan", "09:00", "12:00", 1, 1, 0, 0, 0, 0, 0⟩]

/-- Three bookings: two for tour 10, one for tour 11, all for guide 1. -/
def exBookings : List Booking :=
  [⟨100, 10, 1, "2025-03-01"⟩, ⟨101, 10, 1, "2025-03-02"⟩,
   ⟨102, 11, 1, "2025-03-02"⟩]

/-- Bookings containing an orphan: booking 103 references tour 99 and guide 9,
neither of which exists. -/
def orphanBookings : List Booking :=
  [⟨100, 10, 1, "2025-03-01"⟩, ⟨103, 99, 9, "2025-03-02"⟩]

/-! ### Lemmas: stable descending insertion sort -/

theorem perm_insertDescBy {α β : Type} (f : α → β) [LinearOrder β] (x : α)
    (l : List α) : (insertDescBy f x l).Perm (x :: l) := by
  induction l with
  | nil => rfl
  | cons y ys ih =>
    by_cases h : f x < f y
    · simpa [insertDescBy, h] using (ih.cons y).trans (List.Perm.swap x y ys)
    · simp [insertDescBy, h]

theorem perm_sortDescBy {α β : Type} (f : α → β) [LinearOrder β]
    (l : List α) : (sortDescBy f l).Perm l := by
  induction l with
  | nil => rfl
  | cons x xs ih =>
    exact (perm_insertDescBy f x (sortDescBy f xs)).trans (ih.cons x)

theorem mem_sortDescBy {α β : Type} (f : α → β) [LinearOrder β]
    {l : List α} {a : α} : a ∈ sortDescBy f l ↔ a ∈ l :=
  (perm_sortDescBy f l).mem_iff

theorem pairwise_ge_insertDescBy {α β : Type} (f : α → β) [LinearOrder β]
    (x : α) {l : List α} (h : l.Pairwise (fun a b => f b ≤ f a)) :
    (insertDescBy f x l).Pairwise (fun a b => f b ≤ f a) := by
  induction l with
  | nil => simp [insertDescBy]
  | cons y ys ih =>
    rcases List.pairwise_cons.mp h with ⟨hy, hys⟩
    by_cases hlt : f x < f y
    · rw [insertDescBy, if_pos hlt]
      refine List.pairwise_cons.mpr ⟨?_, ih hys⟩
      intro z hz
      rcases List.mem_cons.mp ((perm_insertDescBy f x ys).mem_iff.mp hz) with hz | hz
      · subst hz
        exact le_of_lt hlt
      · exact hy z hz
    · rw [insertDescBy, if_neg hlt]
      refine List.pairwise_cons.mpr ⟨?_, h⟩
      intro z hz
      rcases List.mem_cons.mp hz with hz | hz
      · subst hz
        exact le_of_not_lt hlt
      · exact le_trans (hy z hz) (le_of_not_lt hlt)

theorem pairwise_ge_sortDescBy {α β : Type} (f : α → β) [LinearOrder β]
    (l : List α) : (sortDescBy f l).Pairwise (fun a b => f b ≤ f a) := by
  induction l with
  | nil => simp [sortDescBy]
  | cons x xs ih => exact pairwise_ge_insertDescBy f x ih

theorem stable_insertDescBy {α β : Type} (f : α → β) [LinearOrder β]
    (g : α → Nat) (x : α) {l : List α}
    (hx : ∀ y ∈ l, g x < g y)
    (h : l.Pairwise (fun a b => f b < f a ∨ (f a = f b ∧ g a < g b))) :
    (insertDescBy f x l).Pairwise
      (fun a b => f b < f a ∨ (f a = f b ∧ g a < g b)) := by
  induction l with
  | nil => simp [insertDescBy]
  | cons y ys ih =>
    rcases List.pairwise_cons.mp h with ⟨hy, hys⟩
    by_cases hlt : f x < f y
    · rw [insertDescBy, if_pos hlt]
      refine List.pairwise_cons.mpr ⟨?_, ih (fun z hz => hx z (by simp [hz])) hys⟩
      intro z hz
      rcases List.mem_cons.mp ((perm_insertDescBy f x ys).mem_iff.mp hz) with hz | hz
      · subst hz
        exact Or.inl hlt
      · exact hy z hz
    · rw [insertDescBy, if_neg hlt]
      refine List.pairwise_cons.mpr ⟨?_, h⟩
      intro z hz
      have hxz : g x < g z := hx z hz
      rcases List.mem_cons.mp hz with hz | hz
      · subst hz
        rcases lt_or_eq_of_le (le_of_not_lt hlt) with hfz | hfz
        · exact Or.inl hfz
        · exact Or.inr ⟨hfz.symm, hxz⟩
      · have hyz := hy z hz
        have hzy : f z ≤ f y := by
          rcases hyz with hyz | hyz
          · exact le_of_lt hyz
          · exact le_of_eq hyz.1.symm
        have hzx : f z ≤ f x := le_trans hzy (le_of_not_lt hlt)
        rcases lt_or_eq_of_le hzx with hfz | hfz
        · exact Or.inl hfz
        · exact Or.inr ⟨hfz.symm, hxz⟩

theorem stable_sortDescBy {α β : Type} (f : α → β) [LinearOrder β]
    (g : α → Nat) {l : List α} (h : l.Pairwise (fun a b => g a < g b)) :
    (sortDescBy f l).Pairwise
      (fun a b => f b < f a ∨ (f a = f b ∧ g a < g b)) := by
  induction l with
  | nil => simp [sortDescBy]
  | cons x xs ih =>
    rcases List.pairwise_cons.mp h with ⟨hx, hxs⟩
    refine stable_insertDescBy f g x ?_ (ih hxs)
    intro y hy
    exact hx y ((perm_sortDescBy f xs).mem_iff.mp hy)

/-! ### Lemmas: first-appearance key lists and tallies -/

theorem mem_firstOccs {κ : Type} [DecidableEq κ] {l : List κ} {a : κ} :
    a ∈ firstOccs l ↔ a ∈ l := by
  induction l with
  | nil => simp [firstOccs]
  | cons k ks ih =>
    by_cases h : a = k
    · subst h
      simp [firstOccs]
    · simp [firstOccs, List.mem_filter, h, ih]

theorem nodup_firstOccs {κ : Type} [DecidableEq κ] (l : List κ) :
    (firstOccs l).Nodup := by
  induction l with
  | nil => simp [firstOccs]
  | cons k ks ih =>
    refine List.nodup_cons.mpr ⟨?_, ih.filter _⟩
    intro hk
    have h2 : k ≠ k := by simpa using (List.mem_filter.mp hk).2
    exact h2 rfl

theorem pairwise_indexOf_firstOccs {κ : Type} [DecidableEq κ] (l : List κ) :
    (firstOccs l).Pairwise (fun a b => l.indexOf a < l.indexOf b) := by
  induction l with
  | nil => simp [firstOccs]
  | cons k ks ih =>
    refine List.pairwise_cons.mpr ⟨?_, ?_⟩
    · intro b hb
      rcases List.mem_filter.mp hb with ⟨_, hbk⟩
      have hbk : b ≠ k := by simpa using hbk
      rw [List.indexOf_cons_self, List.indexOf_cons_ne _ (fun h => hbk h.symm)]
      exact Nat.succ_pos _
    · have hf := ih.filter (fun x => x ≠ k)
      refine hf.imp_of_mem ?_
      intro a b ha hb hab
      have ha : a ≠ k := by simpa using (List.mem_filter.mp ha).2
      have hb : b ≠ k := by simpa using (List.mem_filter.mp hb).2
      rw [List.indexOf_cons_ne _ (fun h => ha h.symm),
        List.indexOf_cons_ne _ (fun h => hb h.symm)]
      exact Nat.succ_lt_succ hab

theorem tally_fst {κ : Type} [DecidableEq κ] (l : List κ) :
    (tally l).map (fun p => p.1) = firstOccs l := by
  rw [tally, List.map_map]
  exact List.map_id _

theorem mem_tally {κ : Type} [DecidableEq κ] {l : List κ} {k : κ} {c : Nat}
    (h : (k, c) ∈ tally l) : k ∈ l ∧ c = countKey l k := by
  rcases List.mem_map.mp h with ⟨a, ha, hak⟩
  have h1 : a = k := congrArg Prod.fst hak
  subst h1
  exact ⟨mem_firstOccs.mp ha, (congrArg Prod.snd hak).symm⟩

theorem tally_complete {κ : Type} [DecidableEq κ] {l : List κ} {k : κ}
    (h : k ∈ l) : (k, countKey l k) ∈ tally l :=
  List.mem_map.mpr ⟨k, mem_firstOccs.mpr h, rfl⟩

theorem perm_firstOccs_dedup {κ : Type} [DecidableEq κ] (l : List κ) :
    (firstOccs l).Perm l.dedup := by
  refine (List.perm_ext_iff_of_nodup (nodup_firstOccs l) l.nodup_dedup).mpr ?_
  intro a
  rw [mem_firstOccs, List.mem_dedup]

theorem tally_sum {κ : Type} [DecidableEq κ] (l : List κ) :
    ((tally l).map (fun p => p.2)).sum = l.length := by
  have h1 : (tally l).map (fun p => p.2) = (firstOccs l).map (fun k => l.count k) := by
    simp [tally, countKey]
  have h2 : ((firstOccs l).map (fun k => l.count k)).Perm
      (l.dedup.map (fun k => l.count k)) :=
    (perm_firstOccs_dedup l).map _
  rw [h1, h2.sum_eq]
  exact List.sum_map_count_dedup_eq_length l

theorem tally_pairwise_indexOf {κ : Type} [DecidableEq κ] (l : List κ) :
    (tally l).Pairwise (fun p q => l.indexOf p.1 < l.indexOf q.1) := by
  rw [tally]
  refine List.Pairwise.map _ ?_ (pairwise_indexOf_firstOccs l)
  intro a b h
  exact h

/-! ### Lemmas: key lookup and merge-key universes -/

theorem mem_mergeKeys {κ : Type} [DecidableEq κ] {l r : List κ} {k : κ} :
    k ∈ mergeKeys l r ↔ k ∈ l ∨ k ∈ r := by
  constructor
  · intro h
    rcases List.mem_append.mp h with h | h
    · exact Or.inl h
    · exact Or.inr (List.mem_filter.mp h).1
  · intro h
    by_cases hl : k ∈ l
    · exact List.mem_append.mpr (Or.inl hl)
    · rcases h with h | h
      · exact absurd h hl
      · exact List.mem_append.mpr (Or.inr (List.mem_filter.mpr ⟨h, by simpa using hl⟩))

theorem lookupVal_eq_none {κ β : Type} [DecidableEq κ] {t : List (κ × β)}
    {k : κ} (h : k ∉ t.map (fun p => p.1)) : lookupVal t k = none := by
  have hf : t.find? (fun p => p.1 = k) = none := by
    apply List.find?_eq_none.mpr
    intro p hp
    simp only [decide_eq_true_eq]
    intro hpk
    exact h (List.mem_map.mpr ⟨p, hp, hpk⟩)
  simp [lookupVal, hf]

theorem lookupVal_eq_some {κ β : Type} [DecidableEq κ] {t : List (κ × β)}
    {k : κ} {v : β} (hnd : (t.map (fun p => p.1)).Nodup)
    (h : (k, v) ∈ t) : lookupVal t k = some v := by
  induction t with
  | nil => cases h
  | cons p ps ih =>
    rcases List.mem_cons.mp h with h | h
    · subst h
      simp [lookupVal, List.find?]
    · have hnd1 := (List.nodup_cons.mp hnd).1
      have hpk : p.1 ≠ k := by
        intro he
        apply hnd1
        have hkmem : k ∈ List.map (fun p => p.1) ps := List.mem_map.mpr ⟨(k, v), h, rfl⟩
        simpa [he] using hkmem
      have ih1 := ih (List.nodup_cons.mp hnd).2 h
      simpa [lookupVal, List.find?, hpk] using ih1

/-! ### Lemmas: the left-outer-join combinator -/

theorem left_join_origin {α ρ γ : Type} {L : List α} {R : List ρ}
    {key : α → ρ → Bool} {mk : α → Option ρ → γ} {c : γ}
    (h : c ∈ left_join L R key mk) :
    ∃ a ∈ L, (c = mk a none ∧ ∀ r ∈ R, ¬ key a r) ∨
      ∃ r ∈ R, key a r ∧ c = mk a (some r) := by
  rcases List.mem_flatMap.mp h with ⟨a, haL, hc⟩
  refine ⟨a, haL, ?_⟩
  rcases hR : R.filter (key a) with _ | ⟨m, ms⟩
  · rw [hR] at hc
    refine Or.inl ⟨by simpa using hc, ?_⟩
    intro r hr hkey
    have : r ∈ R.filter (key a) := List.mem_filter.mpr ⟨hr, hkey⟩
    rw [hR] at this
    cases this
  · rw [hR] at hc
    rcases List.mem_map.mp hc with ⟨r, hrm, hrc⟩
    have hrf : r ∈ R.filter (key a) := hR ▸ hrm
    rcases List.mem_filter.mp hrf with ⟨hrR, hkey⟩
    exact Or.inr ⟨r, hrR, hkey, hrc.symm⟩

theorem filter_length_le_one {ρ : Type} {R : List ρ} {f : ρ → Nat}
    (h : (R.map f).Nodup) (v : Nat) :
    (R.filter (fun r => f r == v)).length ≤ 1 := by
  induction R with
  | nil => simp
  | cons r rs ih =>
    rcases List.nodup_cons.mp h with ⟨hr, hrs⟩
    by_cases hv : f r = v
    · have : rs.filter (fun x => f x == v) = [] := by
        rw [List.filter_eq_nil_iff]
        intro x hx
        simp only [beq_iff_eq]
        intro hxv
        exact hr (List.mem_map.mpr ⟨x, hx, by rw [hxv, hv]⟩)
      simp [List.filter_cons, hv, this]
    · simpa [List.filter_cons, hv] using ih hrs

theorem head?_filter_eq_find? {ρ : Type} (p : ρ → Bool) (l : List ρ) :
    (l.filter p).head? = l.find? p := by
  induction l with
  | nil => rfl
  | cons x xs ih =>
    by_cases h : p x <;> simp [List.filter_cons, List.find?, h, ih]

theorem left_join_of_unique {α ρ γ : Type} {L : List α} {R : List ρ}
    {key : α → ρ → Bool} {mk : α → Option ρ → γ}
    (h : ∀ a ∈ L, (R.filter (key a)).length ≤ 1) :
    left_join L R key mk = L.map (fun a => mk a (R.find? (key a))) := by
  induction L with
  | nil => rfl
  | cons a as ih =>
    have ha := h a (List.mem_cons_self a as)
    have hstep : (match R.filter (key a) with
        | [] => [mk a none]
        | m :: ms => (m :: ms).map (fun r => mk a (some r))) =
        [mk a (R.find? (key a))] := by
      rcases hR : R.filter (key a) with _ | ⟨m, ms⟩
      · have : R.find? (key a) = none := by
          rw [← head?_filter_eq_find?, hR]
          rfl
        simp [this]
      · have hms : ms = [] := by
          have := ha
          rw [hR] at this
          simpa using this
        subst hms
        have : R.find? (key a) = some m := by
          rw [← head?_filter_eq_find?, hR]
          rfl
        simp [this]
    rw [left_join, List.flatMap_cons, hstep]
    rw [left_join] at ih
    rw [ih (fun x hx => h x (List.mem_cons_of_mem a hx)), List.map_cons]
    rfl

theorem left_join_preserves {α ρ γ : Type} {L : List α} {R : List ρ}
    {key : α → ρ → Bool} {mk : α → Option ρ → γ} {a : α} (ha : a ∈ L) :
    (∃ r ∈ R, key a r ∧ mk a (some r) ∈ left_join L R key mk) ∨
      ((∀ r ∈ R, ¬ key a r) ∧ mk a none ∈ left_join L R key mk) := by
  rcases hR : R.filter (key a) with _ | ⟨m, ms⟩
  · refine Or.inr ⟨?_, ?_⟩
    · intro r hr hkey
      have : r ∈ R.filter (key a) := List.mem_filter.mpr ⟨hr, hkey⟩
      rw [hR] at this
      cases this
    · refine List.mem_flatMap.mpr ⟨a, ha, ?_⟩
      rw [hR]
      exact List.mem_singleton.mpr rfl
  · have hm : m ∈ R.filter (key a) := by
      rw [hR]
      exact List.mem_cons_self m ms
    rcases List.mem_filter.mp hm with ⟨hmR, hkey⟩
    refine Or.inl ⟨m, hmR, hkey, List.mem_flatMap.mpr ⟨a, ha, ?_⟩⟩
    rw [hR]
    exact List.mem_map.mpr ⟨m, List.mem_cons_self m ms, rfl⟩

/-! ### Lemmas: drop_duplicates -/

theorem dropDupByGo_subset {α κ : Type} [DecidableEq κ] (key : α → κ)
    (seen : List κ) (l : List α) : ∀ x ∈ dropDupByGo key seen l, x ∈ l := by
  induction l generalizing seen with
  | nil => intro x hx; cases hx
  | cons y ys ih =>
    intro x hx
    rw [dropDupByGo] at hx
    by_cases hy : key y ∈ seen
    · rw [if_pos hy] at hx
      exact List.mem_cons_of_mem y (ih seen x hx)
    · rw [if_neg hy] at hx
      rcases List.mem_cons.mp hx with hx | hx
      · exact hx ▸ List.mem_cons_self y ys
      · exact List.mem_cons_of_mem y (ih _ x hx)

theorem dropDupByGo_not_seen {α κ : Type} [DecidableEq κ] (key : α → κ)
    (seen : List κ) (l : List α) :
    ∀ x ∈ dropDupByGo key seen l, key x ∉ seen := by
  induction l generalizing seen with
  | nil => intro x hx; cases hx
  | cons y ys ih =>
    intro x hx
    rw [dropDupByGo] at hx
    by_cases hy : key y ∈ seen
    · rw [if_pos hy] at hx
      exact ih seen x hx
    · rw [if_neg hy] at hx
      rcases List.mem_cons.mp hx with hx | hx
      · exact hx ▸ hy
      · intro hseen
        exact ih _ x hx (List.mem_cons_of_mem _ hseen)

theorem dropDupByGo_nodup_keys {α κ : Type} [DecidableEq κ] (key : α → κ)
    (seen : List κ) (l : List α) :
    ((dropDupByGo key seen l).map key).Nodup := by
  induction l generalizing seen with
  | nil => simp [dropDupByGo]
  | cons y ys ih =>
    rw [dropDupByGo]
    by_cases hy : key y ∈ seen
    · rw [if_pos hy]
      exact ih seen
    · rw [if_neg hy, List.map_cons]
      refine List.nodup_cons.mpr ⟨?_, ih _⟩
      intro hmem
      rcases List.mem_map.mp hmem with ⟨x, hx, hxy⟩
      exact dropDupByGo_not_seen key _ ys x hx (hxy ▸ List.mem_cons_self _ _)

theorem dropDupByGo_cover {α κ : Type} [DecidableEq κ] (key : α → κ)
    (seen : List κ) (l : List α) :
    ∀ q ∈ l, key q ∉ seen → ∃ p ∈ dropDupByGo key seen l, key p = key q := by
  induction l generalizing seen with
  | nil => intro q hq; cases hq
  | cons y ys ih =>
    intro q hq hqs
    rw [dropDupByGo]
    by_cases hy : key y ∈ seen
    · rw [if_pos hy]
      rcases List.mem_cons.mp hq with hq | hq
      · exact absurd (hq ▸ hqs) (fun h => h hy)
      · exact ih seen q hq hqs
    · rw [if_neg hy]
      rcases List.mem_cons.mp hq with hq | hq
      · exact ⟨y, List.mem_cons_self _ _, by rw [hq]⟩
      · by_cases hqy : key q = key y
        · exact ⟨y, List.mem_cons_self _ _, hqy.symm⟩
        · have hqs2 : key q ∉ key y :: seen := by
            intro hmem
            rcases List.mem_cons.mp hmem with h | h
            · exact hqy h
            · exact hqs h
          rcases ih (key y :: seen) q hq hqs2 with ⟨p, hp, hpq⟩
          exact ⟨p, List.mem_cons_of_mem y hp, hpq⟩

theorem dropDupByGo_max {α κ : Type} [DecidableEq κ] (key : α → κ)
    (val : α → Nat) (seen : List κ) (l : List α)
    (hsort : l.Pairwise (fun a b => val b ≤ val a)) :
    ∀ p ∈ dropDupByGo key seen l, ∀ q ∈ l, key q = key p → val q ≤ val p := by
  induction l generalizing seen with
  | nil => intro p hp; cases hp
  | cons y ys ih =>
    rcases List.pairwise_cons.mp hsort with ⟨hy, hys⟩
    intro p hp q hq hkq
    rw [dropDupByGo] at hp
    by_cases hyseen : key y ∈ seen
    · rw [if_pos hyseen] at hp
      rcases List.mem_cons.mp hq with hq | hq
      · exfalso
        have := dropDupByGo_not_seen key seen ys p hp
        rw [← hkq, hq] at this
        exact this hyseen
      · exact ih seen hys p hp q hq hkq
    · rw [if_neg hyseen] at hp
      rcases List.mem_cons.mp hp with hp | hp
      · subst hp
        rcases List.mem_cons.mp hq with hq | hq
        · exact hq ▸ le_refl _
        · exact hy q hq
      · rcases List.mem_cons.mp hq with hq | hq
        · exfalso
          have := dropDupByGo_not_seen key _ ys p hp
          rw [← hkq, hq] at this
          exact this (List.mem_cons_self _ _)
        · exact ih _ hys p hp q hq hkq

/-! ### Lemmas: miscellaneous list facts -/

theorem sum_map_take_le {α : Type} (f : α → Nat) (l : List α) (n : Nat) :
    ((l.take n).map f).sum ≤ (l.map f).sum := by
  conv_rhs => rw [← List.take_append_drop n l]
  rw [List.map_append, List.sum_append]
  exact Nat.le_add_right _ _

theorem length_filterMap_id_lt {α : Type} {l : List (Option α)}
    (h : none ∈ l) : (l.filterMap id).length < l.length := by
  induction l with
  | nil => cases h
  | cons x xs ih =>
    rcases List.mem_cons.mp h with hx | hx
    · subst hx
      rw [List.filterMap_cons]
      calc (xs.filterMap id).length ≤ xs.length := List.length_filterMap_le id xs
        _ < (none :: xs).length := by simp
    · cases x with
      | none =>
        rw [List.filterMap_cons]
        calc (xs.filterMap id).length ≤ xs.length := List.length_filterMap_le id xs
          _ < (none :: xs).length := by simp
      | some a =>
        rw [List.filterMap_cons]
        simpa using ih hx

theorem count_filterMap_id {α : Type} [DecidableEq α] (l : List (Option α))
    (k : α) : countKey (l.filterMap id) k = countKey l (some k) := by
  show (l.filterMap id).countP (fun x => decide (x = k)) =
    l.countP (fun x => decide (x = some k))
  induction l with
  | nil => rfl
  | cons x xs ih =>
    cases x with
    | none => simp [List.filterMap_cons, List.countP_cons, ih]
    | some a =>
      by_cases h : a = k
      · subst h
        simp [List.filterMap_cons, List.countP_cons, ih]
      · simp [List.filterMap_cons, List.countP_cons, ih, h]

/-! ### Claim C9 -/

/-- C9: for every tour whose seven `Op_Monday..Op_Sunday` flags are
boolean-like (each 0 or 1), the computed weekly operating-day count
`Tours_Operating_Days` equals the sum of the seven flags and lies in `[0, 7]`. -/
theorem claim_C9_operating_day_bounds (t : Tour)
    (h : ∀ f ∈ week_flags t, f = 0 ∨ f = 1) :
    Tours_Operating_Days t = (week_flags t).sum ∧
      0 ≤ Tours_Operating_Days t ∧ Tours_Operating_Days t ≤ 7 := by
  refine ⟨rfl, ?_, ?_⟩ <;>
  · have h1 := h t.Op_Monday (by simp [week_flags])
    have h2 := h t.Op_Tuesday (by simp [week_flags])
    have h3 := h t.Op_Wednesday (by simp [week_flags])
    have h4 := h t.Op_Thursday (by simp [week_flags])
    have h5 := h t.Op_Friday (by simp [week_flags])
    have h6 := h t.Op_Saturday (by simp [week_flags])
    have h7 := h t.Op_Sunday (by simp [week_flags])
    simp only [Tours_Operating_Days, week_flags, List.sum_cons, List.sum_nil]
    omega

/-- Witness for C9 at a concrete tour with flags 1,0,1,0,1,0,1. -/
theorem claim_C9_witness :
    (∀ f ∈ week_flags ⟨10, "T1", "Rome", "09:00", "12:00", 1, 0, 1, 0, 1, 0, 1⟩,
      f = 0 ∨ f = 1) ∧
    Tours_Operating_Days ⟨10, "T1", "Rome", "09:00", "12:00", 1, 0, 1, 0, 1, 0, 1⟩ =
      (week_flags ⟨10, "T1", "Rome", "09:00", "12:00", 1, 0, 1, 0, 1, 0, 1⟩).sum ∧
    0 ≤ Tours_Operating_Days ⟨10, "T1", "Rome", "09:00", "12:00", 1, 0, 1, 0, 1, 0, 1⟩ ∧
    Tours_Operating_Days ⟨10, "T1", "Rome", "09:00", "12:00", 1, 0, 1, 0, 1, 0, 1⟩ ≤ 7 :=
  ⟨by decide, claim_C9_operating_day_bounds _ (by decide)⟩

/-! ### Claim C3 (corrected): the Availability⋈Guides join keeps guide rows,
not availability rows.  The source merges with GUIDES as the left table
(`guides[m].merge(availability[m], ..., how="left")`), so an availability
record whose `GuideID` matches no guide row is dropped from the join, while
every guide row is preserved (with null availability fields when unmatched). -/

/-- C3 counterexample: with one guide (id 1) and one availability record
whose `GuideID` is 2, the join consists of exactly the guide's null-extended
row; the orphan availability record is dropped — no row of the join carries
its date, contradicting the claim that every availability record is
preserved. -/
theorem claim_C3_counterexample :
    availability_days_guides exGuides orphanAvail =
      [⟨1, "G1", none, none, none⟩] ∧
    ¬ ∃ r ∈ availability_days_guides exGuides orphanAvail,
      r.AvailabilityDate = some "2025-03-01" := by
  constructor
  · rfl
  · decide

/-- C3 (amended): in the Availability⋈Guides join every GUIDE row is
preserved — a guide with no matching availability record yields one row whose
availability-side fields are all null — and every row of the join originates
from a guide row, so an availability record whose `GuideID` matches no guide
contributes no row (it is dropped, not kept with nulls). -/
theorem claim_C3_join_direction (gs : List Guide) (av : List AvailRecord) :
    (∀ g ∈ gs,
      (∃ a ∈ av, a.GuideID = g.id ∧
        (⟨g.id, g.GuideName, some a.GuideID, some a.AvailabilityDate,
          a.GuideAvailability⟩ : AvailJoinRow) ∈ availability_days_guides gs av) ∨
      ((∀ a ∈ av, a.GuideID ≠ g.id) ∧
        (⟨g.id, g.GuideName, none, none, none⟩ : AvailJoinRow) ∈
          availability_days_guides gs av)) ∧
    (∀ r ∈ availability_days_guides gs av, ∃ g ∈ gs, r.id = g.id ∧
      r.GuideName = g.GuideName) := by
  constructor
  · intro g hg
    rcases @left_join_preserves Guide AvailRecord AvailJoinRow gs av
        (fun g a => a.GuideID == g.id)
        (fun g a? => (⟨g.id, g.GuideName, a?.map (fun a => a.GuideID),
          a?.map (fun a => a.AvailabilityDate),
          a?.bind (fun a => a.GuideAvailability)⟩ : AvailJoinRow)) g hg with
      h | h
    · rcases h with ⟨a, hav, hkey, hmem⟩
      exact Or.inl ⟨a, hav, by simpa using hkey, hmem⟩
    · rcases h with ⟨hnone, hmem⟩
      refine Or.inr ⟨?_, hmem⟩
      intro a hav
      have := hnone a hav
      simpa using this
  · intro r hr
    rcases left_join_origin hr with ⟨g, hg, hcase⟩
    rcases hcase with ⟨heq, _⟩ | ⟨a, _, _, heq⟩ <;>
      exact ⟨g, hg, by rw [heq], by rw [heq]⟩

/-- Witness for the amended C3 at the concrete one-guide dataset: the
null-extended guide row is in the join, and applying the theorem to it shows
it originates from a guide row. -/
theorem claim_C3_witness :
    ((⟨1, "G1", none, none, none⟩ : AvailJoinRow) ∈
      availability_days_guides exGuides orphanAvail) ∧
    ∃ g ∈ exGuides, (⟨1, "G1", none, none, none⟩ : AvailJoinRow).id = g.id ∧
      (⟨1, "G1", none, none, none⟩ : AvailJoinRow).GuideName = g.GuideName :=
  ⟨by decide,
   (claim_C3_join_direction exGuides orphanAvail).2 _ (by decide)⟩

/-! ### Claim C5 (corrected): `not_available_days` is a plain, silent
subtraction.  The code computes `days_in_month - available_days` with no
check: a guide whose distinct-availability-date count exceeds the days in the
month gets a NEGATIVE not-available count, silently — no warning, error,
clamping, or other surfacing exists in the source. -/

/-- C5 counterexample: guide G1 has 32 distinct availability dates (dates
outside March are counted too), so `not_available_days` for March 2025
returns the negative count −1 for G1 — silently, contradicting the claim
that a would-be-negative result is surfaced as a warning/error. -/
theorem claim_C5_counterexample :
    ("G1", (-1 : Int)) ∈ not_available_days (get_days_in_month 3 2025)
      (available_days_per_guide (availability_days_guides exGuides overfullAvail)) := by
  decide

/-- C5 (amended): for every guide in the availability series,
`not_available_days` reports exactly days-in-month minus that guide's
available-day count — including negative values, which are returned as-is
(no warning, error, or clamping; e.g. an input count of 32 against 31 March
days yields −1). -/
theorem claim_C5_subtraction (daysInMonth : Nat) (avail : List (String × Nat)) :
    (∀ p ∈ not_available_days daysInMonth avail,
      ∃ c, (p.1, c) ∈ avail ∧ p.2 = (daysInMonth : Int) - (c : Int)) ∧
    (∀ k c, (k, c) ∈ avail →
      (k, (daysInMonth : Int) - (c : Int)) ∈ not_available_days daysInMonth avail) ∧
    not_available_days 31 [("G1", 32)] = [("G1", (-1 : Int))] := by
  refine ⟨?_, ?_, by decide⟩
  · intro p hp
    have hp2 : p ∈ avail.map (fun p => (p.1, (daysInMonth : Int) - (p.2 : Int))) :=
      (perm_sortDescBy _ _).mem_iff.mp hp
    rcases List.mem_map.mp hp2 with ⟨q, hq, hqp⟩
    exact ⟨q.2, by rw [← hqp]; exact ⟨hq, rfl⟩⟩
  · intro k c hkc
    rw [not_available_days]
    refine (perm_sortDescBy (fun p : String × Int => p.2) _).mem_iff.mpr ?_
    exact List.mem_map.mpr ⟨(k, c), hkc, rfl⟩

/-- Witness for the amended C5 at the concrete 32-date dataset. -/
theorem claim_C5_witness :
    (("G1", (32 : Nat)) ∈
      available_days_per_guide (availability_days_guides exGuides overfullAvail)) ∧
    ("G1", (31 : Int) - (32 : Int)) ∈ not_available_days 31
      (available_days_per_guide (availability_days_guides exGuides overfullAvail)) :=
  ⟨by decide,
   (claim_C5_subtraction 31
      (available_days_per_guide (availability_days_guides exGuides overfullAvail))).2.1
     "G1" 32 (by decide)⟩

/-! ### Claim C1 (corrected): division by zero in the occupancy percentage
produces +infinity, not an "undefined" value.  The source computes
`(DaysOccupied / AvailableDays * 100).round(2)` with numpy semantics: a
positive count divided by an `AvailableDays` of 0 gives `inf` (only a guide
missing from one of the two series produces NaN, via index alignment). -/

/-- C1 counterexample: at DaysOccupied = 5, AvailableDays = 0 the occupancy
metric is reported as +infinity — a defined, non-crashing value that is
neither 0 nor NaN/undefined — contradicting the claim that it is reported as
undefined and is not infinity. -/
theorem claim_C1_counterexample :
    (occupancy_stats [("G1", 5)] [("G1", 0)]).map (fun r => r.OccupancyPct) =
      [PFloat.inf] ∧
    PFloat.inf ≠ PFloat.nan ∧ PFloat.inf ≠ PFloat.num 0 := by
  decide

/-- C1 (amended): every row of the occupancy table carries
`OccupancyPct = round(DaysOccupied / AvailableDays × 100, 2)` under pandas
float semantics; a NaN `AvailableDays` (guide missing from the availability
series) makes the percentage NaN (undefined); but an `AvailableDays` of 0
with a positive `DaysOccupied` yields +infinity — the computation is total
(no crash) and reports neither 0 nor an undefined value in that case, as the
concrete (5, 0) table shows. -/
theorem claim_C1_occupancy_pct (occ avail : List (String × Nat)) :
    (∀ r ∈ occupancy_stats occ avail,
      r.OccupancyPct =
        pround2 (pmul (pdiv r.DaysOccupied r.AvailableDays) (PFloat.num 100))) ∧
    (∀ r ∈ occupancy_stats occ avail, r.AvailableDays = PFloat.nan →
      r.OccupancyPct = PFloat.nan) ∧
    (∀ a : ℚ, 0 < a →
      occupancyPct (PFloat.num a) (PFloat.num 0) = PFloat.inf) ∧
    occupancy_stats [("G1", 5)] [("G1", 0)] =
      [⟨"G1", PFloat.num 5, PFloat.num 0, PFloat.inf⟩] := by
  refine ⟨?_, ?_, ?_, by decide⟩
  · intro r hr
    rcases List.mem_map.mp hr with ⟨k, _, hkr⟩
    rw [← hkr]
    rfl
  · intro r hr hnan
    rcases List.mem_map.mp hr with ⟨k, _, hkr⟩
    rw [← hkr]
    rw [← hkr] at hnan
    simp only at hnan ⊢
    rw [hnan]
    rcases hD : toPFloat (lookupVal occ k) with q | _ | _ | _ <;> rfl
  · intro a ha
    have h100 : (0 : ℚ) < 100 := by norm_num
    simp [occupancyPct, pdiv, pmul, pround2, ha, h100]

/-- Witness for the amended C1 at the one-guide (5, 0) table: its single row
is in the table and satisfies the formula conjunct. -/
theorem claim_C1_witness :
    ((⟨"G1", PFloat.num 5, PFloat.num 0, PFloat.inf⟩ : OccRow) ∈
      occupancy_stats [("G1", 5)] [("G1", 0)]) ∧
    (⟨"G1", PFloat.num 5, PFloat.num 0, PFloat.inf⟩ : OccRow).OccupancyPct =
      pround2 (pmul (pdiv (PFloat.num 5) (PFloat.num 0)) (PFloat.num 100)) :=
  ⟨by decide,
   (claim_C1_occupancy_pct [("G1", 5)] [("G1", 0)]).1 _ (by decide)⟩

/-! ### Claim C2 -/

/-- C2: the cross-period combined table's entity universe is the union of the
four input periods' entity sets (no entity lost), a period missing an entity
contributes the number 0 (not null) in that period's column, a present entry
contributes its value, and the `Total` column is the sum of the four period
columns. -/
theorem claim_C2_combiner (t03 t04 t05 t06 : List (String × Nat))
    (h3 : (t03.map (fun p => p.1)).Nodup) (h4 : (t04.map (fun p => p.1)).Nodup)
    (h5 : (t05.map (fun p => p.1)).Nodup) (h6 : (t06.map (fun p => p.1)).Nodup) :
    (∀ k, (∃ r ∈ merged t03 t04 t05 t06, r.name = k) ↔
      (k ∈ t03.map (fun p => p.1) ∨ k ∈ t04.map (fun p => p.1) ∨
        k ∈ t05.map (fun p => p.1) ∨ k ∈ t06.map (fun p => p.1))) ∧
    (∀ r ∈ merged t03 t04 t05 t06,
      ((∀ v, (r.name, v) ∈ t03 → r.march = v) ∧
        (r.name ∉ t03.map (fun p => p.1) → r.march = 0)) ∧
      ((∀ v, (r.name, v) ∈ t04 → r.april = v) ∧
        (r.name ∉ t04.map (fun p => p.1) → r.april = 0)) ∧
      ((∀ v, (r.name, v) ∈ t05 → r.may = v) ∧
        (r.name ∉ t05.map (fun p => p.1) → r.may = 0)) ∧
      ((∀ v, (r.name, v) ∈ t06 → r.june = v) ∧
        (r.name ∉ t06.map (fun p => p.1) → r.june = 0))) ∧
    (∀ r ∈ merged t03 t04 t05 t06,
      r.Total = r.march + r.april + r.may + r.june) := by
  refine ⟨?_, ?_, ?_⟩
  · intro k
    constructor
    · rintro ⟨r, hr, hname⟩
      rcases List.mem_map.mp hr with ⟨k0, hk0, hk0r⟩
      have hk : k0 = k := by rw [← hname, ← hk0r]
      subst hk
      rcases mem_mergeKeys.mp hk0 with h | h
      · rcases mem_mergeKeys.mp h with h | h
        · rcases mem_mergeKeys.mp h with h | h
          · exact Or.inl h
          · exact Or.inr (Or.inl h)
        · exact Or.inr (Or.inr (Or.inl h))
      · exact Or.inr (Or.inr (Or.inr h))
    · intro hk
      have hk0 : k ∈ mergeKeys (mergeKeys (mergeKeys (t03.map (fun p => p.1))
          (t04.map (fun p => p.1))) (t05.map (fun p => p.1)))
          (t06.map (fun p => p.1)) := by
        rcases hk with h | h | h | h
        · exact mem_mergeKeys.mpr (Or.inl (mem_mergeKeys.mpr
            (Or.inl (mem_mergeKeys.mpr (Or.inl h)))))
        · exact mem_mergeKeys.mpr (Or.inl (mem_mergeKeys.mpr
            (Or.inl (mem_mergeKeys.mpr (Or.inr h)))))
        · exact mem_mergeKeys.mpr (Or.inl (mem_mergeKeys.mpr (Or.inr h)))
        · exact mem_mergeKeys.mpr (Or.inr h)
      exact ⟨_, List.mem_map.mpr ⟨k, hk0, rfl⟩, rfl⟩
  · intro r hr
    rcases List.mem_map.mp hr with ⟨k, _, hkr⟩
    rw [← hkr]
    simp only []
    refine ⟨⟨?_, ?_⟩, ⟨?_, ?_⟩, ⟨?_, ?_⟩, ⟨?_, ?_⟩⟩ <;>
      first
      | (intro v hv
         rw [lookupVal_eq_some (by assumption) hv]
         rfl)
      | (intro hnot
         rw [lookupVal_eq_none hnot]
         rfl)
  · intro r hr
    rcases List.mem_map.mp hr with ⟨k, _, hkr⟩
    rw [← hkr]

/-- Witness for C2 at small concrete tables: the key universes are
duplicate-free, and entity B — present only in the April table — still
appears in the combined table. -/
theorem claim_C2_witness :
    ((([("A", 1)] : List (String × Nat)).map (fun p => p.1)).Nodup ∧
      (([("B", 2)] : List (String × Nat)).map (fun p => p.1)).Nodup ∧
      (([] : List (String × Nat)).map (fun p => p.1)).Nodup ∧
      (([("A", 3)] : List (String × Nat)).map (fun p => p.1)).Nodup) ∧
    ∃ r ∈ merged [("A", 1)] [("B", 2)] [] [("A", 3)], r.name = "B" :=
  ⟨⟨by decide, by decide, by decide, by decide⟩,
   ((claim_C2_combiner [("A", 1)] [("B", 2)] [] [("A", 3)]
      (by decide) (by decide) (by decide) (by decide)).1 "B").mpr
     (Or.inr (Or.inl (by decide)))⟩

/-! ### Claim C4 -/

/-- C4: `available_days_per_guide` reports, for each guide name in its
output, the number of distinct `AvailabilityDate` values among the join rows
of that guide whose `GuideAvailability` is present and non-empty, in
descending order of count; on the spec's example table (two non-empty slots
on 2025-03-01, one empty slot on 2025-03-02) guide G1 gets exactly 1. -/
theorem claim_C4_available_days (gs : List Guide) (av : List AvailRecord) :
    (∀ p ∈ available_days_per_guide (availability_days_guides gs av),
      p.2 = ((((valid_avail (availability_days_guides gs av)).filter
        (fun r => r.GuideName == p.1)).map
          (fun r => r.AvailabilityDate)).filterMap id).toFinset.card) ∧
    (available_days_per_guide (availability_days_guides gs av)).Pairwise
      (fun a b => b.2 ≤ a.2) ∧
    available_days_per_guide (availability_days_guides exGuides exAvail) =
      [("G1", 1)] := by
  refine ⟨?_, ?_, by decide⟩
  · intro p hp
    have hp2 := (perm_sortDescBy (fun p : String × Nat => p.2) _).mem_iff.mp hp
    rcases List.mem_map.mp hp2 with ⟨g, _, hgp⟩
    rw [← hgp]
    simp only []
    rw [List.card_toFinset]
    rfl
  · exact pairwise_ge_sortDescBy _ _

/-- Witness for C4 at the spec's example table, instantiating the count
characterization at the G1 row. -/
theorem claim_C4_witness :
    (("G1", 1) ∈ available_days_per_guide
      (availability_days_guides exGuides exAvail)) ∧
    (1 : Nat) = ((((valid_avail (availability_days_guides exGuides exAvail)).filter
      (fun r => r.GuideName == "G1")).map
        (fun r => r.AvailabilityDate)).filterMap id).toFinset.card :=
  ⟨by decide,
   (claim_C4_available_days exGuides exAvail).1 ("G1", 1) (by decide)⟩

/-! ### Claim C6 -/

/-- C6: for every bookings/tours input and every `n`, `top_tours` returns at
most `n` entries; each entry pairs a tour name with the number of rows of the
joined `TourName` column holding that name; entries are sorted in descending
order of count; and ties between equal counts are ordered by the first
appearance of the tour name in the (non-null part of the) column — the sort
is stable. -/
theorem claim_C6_top_tours (bs : List Booking) (ts : List Tour) (n : Nat) :
    (top_tours bs ts n).length ≤ n ∧
    (∀ p ∈ top_tours bs ts n,
      p.2 = countKey ((bookings_tours bs ts).map (fun r => r.TourName)) (some p.1)) ∧
    (top_tours bs ts n).Pairwise (fun a b => b.2 ≤ a.2) ∧
    (top_tours bs ts n).Pairwise (fun a b => b.2 < a.2 ∨ (a.2 = b.2 ∧
      (((bookings_tours bs ts).map (fun r => r.TourName)).filterMap id).indexOf a.1 <
      (((bookings_tours bs ts).map (fun r => r.TourName)).filterMap id).indexOf b.1)) := by
  refine ⟨List.length_take_le n _, ?_, ?_, ?_⟩
  · intro p hp
    have hp2 : p ∈ sortDescBy (fun p : String × Nat => p.2)
        (tally (((bookings_tours bs ts).map (fun r => r.TourName)).filterMap id)) :=
      (List.take_sublist n _).subset hp
    have hp3 := (perm_sortDescBy (fun p : String × Nat => p.2) _).mem_iff.mp hp2
    rcases mem_tally hp3 with ⟨_, hc⟩
    rw [hc, count_filterMap_id]
  · exact (pairwise_ge_sortDescBy (fun p : String × Nat => p.2) _).sublist
      (List.take_sublist n _)
  · exact (stable_sortDescBy (fun p : String × Nat => p.2)
      (fun p => (((bookings_tours bs ts).map (fun r => r.TourName)).filterMap id).indexOf p.1)
      (tally_pairwise_indexOf _)).sublist (List.take_sublist n _)

/-- Witness for C6 at the three-booking dataset: the top entry (T1, 2) is in
the output and its count equals the number of T1 rows in the joined column. -/
theorem claim_C6_witness :
    (("T1", 2) ∈ top_tours exBookings exTours 10) ∧
    (2 : Nat) =
      countKey ((bookings_tours exBookings exTours).map (fun r => r.TourName)) (some "T1") :=
  ⟨by decide, (claim_C6_top_tours exBookings exTours 10).2.1 ("T1", 2) (by decide)⟩

/-! ### Claim C8 -/

/-- C8: `top_slot` considers only tours whose weekly operating-day count is
positive, counts occurrences per (TourLocation, TimeSlot) pair (TimeSlot
built from TimeStart and TimeEnd), and returns exactly one slot per location:
its location list is duplicate-free, a location appears in the result exactly
when it has an active tour, each returned row is one of that location's
slot-count rows, and its count is maximal among that location's slots. -/
theorem claim_C8_dominant_slot (ts : List Tour) :
    ((top_slot ts).map (fun p => p.1.1)).Nodup ∧
    (∀ p ∈ top_slot ts, p ∈ slot_counts ts ∧
      ∀ q ∈ slot_counts ts, q.1.1 = p.1.1 → q.2 ≤ p.2) ∧
    (∀ lo, (∃ p ∈ top_slot ts, p.1.1 = lo) ↔
      lo ∈ (active_tours ts).map (fun t => t.TourLocation)) ∧
    (∀ p ∈ slot_counts ts,
      p.2 = countKey ((active_tours ts).map (fun t => (t.TourLocation, TimeSlot t))) p.1) := by
  refine ⟨dropDupByGo_nodup_keys _ [] _, ?_, ?_, ?_⟩
  · intro p hp
    have hdd : p ∈ dropDupByGo (fun p : (String × String) × Nat => p.1.1) []
        (sortDescBy (fun p : (String × String) × Nat => p.2) (slot_counts ts)) := hp
    have hp2 : p ∈ sortDescBy (fun p : (String × String) × Nat => p.2) (slot_counts ts) :=
      dropDupByGo_subset _ [] _ p hdd
    refine ⟨(perm_sortDescBy _ _).mem_iff.mp hp2, ?_⟩
    intro q hq hqp
    exact dropDupByGo_max (fun p : (String × String) × Nat => p.1.1)
      (fun p : (String × String) × Nat => p.2) []
      (sortDescBy (fun p : (String × String) × Nat => p.2) (slot_counts ts))
      (pairwise_ge_sortDescBy _ _) p hdd q
      ((perm_sortDescBy _ _).mem_iff.mpr hq) hqp
  · intro lo
    constructor
    · rintro ⟨p, hp, hplo⟩
      have hdd : p ∈ dropDupByGo (fun p : (String × String) × Nat => p.1.1) []
          (sortDescBy (fun p : (String × String) × Nat => p.2) (slot_counts ts)) := hp
      have hp2 : p ∈ sortDescBy (fun p : (String × String) × Nat => p.2) (slot_counts ts) :=
        dropDupByGo_subset _ [] _ p hdd
      have hp3 := (perm_sortDescBy _ _).mem_iff.mp hp2
      have hkey : p.1 ∈ (active_tours ts).map (fun t => (t.TourLocation, TimeSlot t)) := by
        rcases p with ⟨kp, cp⟩
        exact (mem_tally hp3).1
      rcases List.mem_map.mp hkey with ⟨t, ht, htp⟩
      refine List.mem_map.mpr ⟨t, ht, ?_⟩
      rw [← hplo, ← htp]
    · intro hlo
      rcases List.mem_map.mp hlo with ⟨t, ht, htlo⟩
      have hkey : (t.TourLocation, TimeSlot t) ∈
          (active_tours ts).map (fun t => (t.TourLocation, TimeSlot t)) :=
        List.mem_map.mpr ⟨t, ht, rfl⟩
      have hq : ((t.TourLocation, TimeSlot t),
          countKey ((active_tours ts).map (fun t => (t.TourLocation, TimeSlot t)))
            (t.TourLocation, TimeSlot t)) ∈ slot_counts ts :=
        tally_complete hkey
      have hq2 := (perm_sortDescBy (fun p : (String × String) × Nat => p.2)
        (slot_counts ts)).mem_iff.mpr hq
      rcases dropDupByGo_cover (fun p : (String × String) × Nat => p.1.1) []
          (sortDescBy (fun p : (String × String) × Nat => p.2) (slot_counts ts))
          _ hq2 (by simp) with ⟨p, hp, hpq⟩
      exact ⟨p, hp, by rw [hpq, ← htlo]⟩
  · intro p hp
    rcases p with ⟨kp, cp⟩
    exact (mem_tally hp).2

/-- Witness for C8 at the two-tour catalogue (both tours active, distinct
locations): the Rome row is returned and its count is maximal for Rome. -/
theorem claim_C8_witness :
    ((("Rome", "09:00 - 12:00"), 1) ∈ top_slot exTours) ∧
    ((("Rome", "09:00 - 12:00"), 1) ∈ slot_counts exTours ∧
      ∀ q ∈ slot_counts exTours, q.1.1 = "Rome" → q.2 ≤ 1) :=
  ⟨by decide,
   (claim_C8_dominant_slot exTours).2.1 (("Rome", "09:00 - 12:00"), 1) (by decide)⟩

/-! ### The bookings join under duplicate-free ids -/

theorem bookings_merged_eq_map (bs : List Booking) (ts : List Tour)
    (gs : List Guide) (hts : (ts.map (fun t => t.id)).Nodup)
    (hgs : (gs.map (fun g => g.id)).Nodup) :
    bookings_merged bs ts gs = bs.map (fun b =>
      (⟨b, (ts.find? (fun t => t.id == b.TourID)).map (fun t => t.id),
        (ts.find? (fun t => t.id == b.TourID)).map (fun t => t.TourName),
        (gs.find? (fun g => g.id == b.GuideID)).map (fun g => g.id),
        (gs.find? (fun g => g.id == b.GuideID)).map (fun g => g.GuideName)⟩ :
      BookingsMergedRow)) := by
  rw [bookings_merged,
    left_join_of_unique (fun r _ => filter_length_le_one hgs r.booking.GuideID),
    bookings_tours,
    left_join_of_unique (fun b _ => filter_length_le_one hts b.TourID),
    List.map_map]
  rfl

theorem bookings_tours_eq_map (bs : List Booking) (ts : List Tour)
    (hts : (ts.map (fun t => t.id)).Nodup) :
    bookings_tours bs ts = bs.map (fun b =>
      (⟨b, (ts.find? (fun t => t.id == b.TourID)).map (fun t => t.id),
        (ts.find? (fun t => t.id == b.TourID)).map (fun t => t.TourName)⟩ :
      BookingTourRow)) := by
  rw [bookings_tours,
    left_join_of_unique (fun b _ => filter_length_le_one hts b.TourID)]

/-! ### Claim C7 -/

/-- C7: with duplicate-free tour and guide ids, the Bookings⋈Tours⋈Guides
join has exactly one row per booking (every booking row preserved, even
orphans); a booking whose `TourID` (resp. `GuideID`) matches no tour (guide)
gets `none` in the joined tour (guide) fields; and the colliding `id` columns
of the two right-hand tables are kept and deterministically renamed to
`TourID_Source`/`GuideID_Source` — the merged column list contains both and
drops no column. -/
theorem claim_C7_bookings_join (bs : List Booking) (ts : List Tour)
    (gs : List Guide) (hts : (ts.map (fun t => t.id)).Nodup)
    (hgs : (gs.map (fun g => g.id)).Nodup) :
    (bookings_merged bs ts gs).length = bs.length ∧
    (∀ b ∈ bs, (⟨b, (ts.find? (fun t => t.id == b.TourID)).map (fun t => t.id),
        (ts.find? (fun t => t.id == b.TourID)).map (fun t => t.TourName),
        (gs.find? (fun g => g.id == b.GuideID)).map (fun g => g.id),
        (gs.find? (fun g => g.id == b.GuideID)).map (fun g => g.GuideName)⟩ :
      BookingsMergedRow) ∈ bookings_merged bs ts gs) ∧
    (∀ b ∈ bs, (∀ t ∈ ts, t.id ≠ b.TourID) →
      ts.find? (fun t => t.id == b.TourID) = none) ∧
    (∀ b ∈ bs, (∀ g ∈ gs, g.id ≠ b.GuideID) →
      gs.find? (fun g => g.id == b.GuideID) = none) ∧
    ("TourID_Source" ∈ bookings_merged_cols ∧
      "GuideID_Source" ∈ bookings_merged_cols ∧
      bookings_merged_cols.length =
        bookings_cols.length + tours_cols.length + guides_cols.length) := by
  refine ⟨?_, ?_, ?_, ?_, by decide⟩
  · rw [bookings_merged_eq_map bs ts gs hts hgs, List.length_map]
  · intro b hb
    rw [bookings_merged_eq_map bs ts gs hts hgs]
    exact List.mem_map.mpr ⟨b, hb, rfl⟩
  · intro b _ hnone
    apply List.find?_eq_none.mpr
    intro t ht
    simpa using hnone t ht
  · intro b _ hnone
    apply List.find?_eq_none.mpr
    intro g hg
    simpa using hnone g hg

/-- Witness for C7 at the orphan dataset: ids are duplicate-free, booking 103
(tour 99, guide 9, both unmatched) still has its row in the join, with nulls
in all joined fields. -/
theorem claim_C7_witness :
    ((exTours.map (fun t => t.id)).Nodup ∧
      (exGuides.map (fun g => g.id)).Nodup ∧
      (⟨103, 99, 9, "2025-03-02"⟩ : Booking) ∈ orphanBookings) ∧
    ((⟨⟨103, 99, 9, "2025-03-02"⟩,
        (exTours.find? (fun t => t.id == 99)).map (fun t => t.id),
        (exTours.find? (fun t => t.id == 99)).map (fun t => t.TourName),
        (exGuides.find? (fun g => g.id == 9)).map (fun g => g.id),
        (exGuides.find? (fun g => g.id == 9)).map (fun g => g.GuideName)⟩ :
      BookingsMergedRow) ∈ bookings_merged orphanBookings exTours exGuides) :=
  ⟨⟨by decide, by decide, by decide⟩,
   (claim_C7_bookings_join orphanBookings exTours exGuides
      (by decide) (by decide)).2.1 _ (by decide)⟩

/-! ### Claim C10 -/

/-- C10: an orphan booking survives the left join but contributes a null
`TourName` (resp. `GuideName`), and `value_counts` drops null keys, so
orphans are silently excluded from the top-tours/top-guides counts: whenever
the input contains an orphan booking (and ids are duplicate-free), the sum of
the returned counts is strictly below the number of booking rows, for every
`n`. -/
theorem claim_C10_orphans_excluded (bs : List Booking) (ts : List Tour)
    (gs : List Guide) (hts : (ts.map (fun t => t.id)).Nodup)
    (hgs : (gs.map (fun g => g.id)).Nodup) :
    ((∃ b ∈ bs, ∀ t ∈ ts, t.id ≠ b.TourID) → ∀ n,
      ((top_tours bs ts n).map (fun p => p.2)).sum < bs.length) ∧
    ((∃ b ∈ bs, ∀ g ∈ gs, g.id ≠ b.GuideID) → ∀ n,
      ((top_guides bs ts gs n).map (fun p => p.2)).sum < bs.length) := by
  constructor
  · rintro ⟨b0, hb0, horph⟩ n
    have hcol : (bookings_tours bs ts).map (fun r => r.TourName) =
        bs.map (fun b => (ts.find? (fun t => t.id == b.TourID)).map
          (fun t => t.TourName)) := by
      rw [bookings_tours_eq_map bs ts hts, List.map_map]
      rfl
    have hfind : ts.find? (fun t => t.id == b0.TourID) = none := by
      apply List.find?_eq_none.mpr
      intro t ht
      simpa using horph t ht
    have hnone : none ∈ (bookings_tours bs ts).map (fun r => r.TourName) := by
      rw [hcol]
      refine List.mem_map.mpr ⟨b0, hb0, ?_⟩
      rw [hfind]
      rfl
    have hlen : ((bookings_tours bs ts).map (fun r => r.TourName)).length =
        bs.length := by
      rw [hcol, List.length_map]
    calc ((top_tours bs ts n).map (fun p => p.2)).sum
        ≤ ((sortDescBy (fun p : String × Nat => p.2)
            (tally ((((bookings_tours bs ts).map (fun r => r.TourName)).filterMap
              id)))).map (fun p => p.2)).sum :=
          sum_map_take_le _ _ n
      _ = ((tally ((((bookings_tours bs ts).map (fun r => r.TourName)).filterMap
            id))).map (fun p => p.2)).sum :=
          ((perm_sortDescBy (fun p : String × Nat => p.2) _).map _).sum_eq
      _ = ((((bookings_tours bs ts).map (fun r => r.TourName)).filterMap
            id)).length := tally_sum _
      _ < ((bookings_tours bs ts).map (fun r => r.TourName)).length :=
          length_filterMap_id_lt hnone
      _ = bs.length := hlen
  · rintro ⟨b0, hb0, horph⟩ n
    have hcol : (bookings_merged bs ts gs).map (fun r => r.GuideName) =
        bs.map (fun b => (gs.find? (fun g => g.id == b.GuideID)).map
          (fun g => g.GuideName)) := by
      rw [bookings_merged_eq_map bs ts gs hts hgs, List.map_map]
      rfl
    have hfind : gs.find? (fun g => g.id == b0.GuideID) = none := by
      apply List.find?_eq_none.mpr
      intro g hg
      simpa using horph g hg
    have hnone : none ∈ (bookings_merged bs ts gs).map (fun r => r.GuideName) := by
      rw [hcol]
      refine List.mem_map.mpr ⟨b0, hb0, ?_⟩
      rw [hfind]
      rfl
    have hlen : ((bookings_merged bs ts gs).map (fun r => r.GuideName)).length =
        bs.length := by
      rw [hcol, List.length_map]
    calc ((top_guides bs ts gs n).map (fun p => p.2)).sum
        ≤ ((sortDescBy (fun p : String × Nat => p.2)
            (tally ((((bookings_merged bs ts gs).map (fun r => r.GuideName)).filterMap
              id)))).map (fun p => p.2)).sum :=
          sum_map_take_le _ _ n
      _ = ((tally ((((bookings_merged bs ts gs).map (fun r => r.GuideName)).filterMap
            id))).map (fun p => p.2)).sum :=
          ((perm_sortDescBy (fun p : String × Nat => p.2) _).map _).sum_eq
      _ = ((((bookings_merged bs ts gs).map (fun r => r.GuideName)).filterMap
            id)).length := tally_sum _
      _ < ((bookings_merged bs ts gs).map (fun r => r.GuideName)).length :=
          length_filterMap_id_lt hnone
      _ = bs.length := hlen

/-- Witness for C10 at the orphan dataset: two bookings, one an orphan in
both foreign keys; both top-count sums fall strictly below 2. -/
theorem claim_C10_witness :
    ((exTours.map (fun t => t.id)).Nodup ∧
      (exGuides.map (fun g => g.id)).Nodup ∧
      (∃ b ∈ orphanBookings, ∀ t ∈ exTours, t.id ≠ b.TourID) ∧
      (∃ b ∈ orphanBookings, ∀ g ∈ exGuides, g.id ≠ b.GuideID)) ∧
    ((top_tours orphanBookings exTours 10).map (fun p => p.2)).sum <
      orphanBookings.length ∧
    ((top_guides orphanBookings exTours exGuides 10).map (fun p => p.2)).sum <
      orphanBookings.length :=
  ⟨⟨by decide, by decide, by decide, by decide⟩,
   (claim_C10_orphans_excluded orphanBookings exTours exGuides
      (by decide) (by decide)).1 (by decide) 10,
   (claim_C10_orphans_excluded orphanBookings exTours exGuides
      (by decide) (by decide)).2 (by decide) 10⟩

end TourInsights
